import Mathlib

/-!
Shallow embedding of the inventory allocation and capacity-accounting
subsystem of the office-server repository (the Express route handlers for
floor inventory, zone inventory and zone objects, together with the
database schema from the Prisma migrations).

Modelling conventions:
* Database tables are Lean lists of rows; `SERIAL` primary keys are
  modelled by `nextZoneInventoryId` / `nextZoneObjectId` counters in the
  state, mirroring the auto-increment sequence.
* `INTEGER` columns are `Int` (the schema has no CHECK constraints, so
  negative values are representable, exactly as in PostgreSQL).
* `DOUBLE PRECISION` coordinates are carried as `Rat`: the handlers only
  store and return them, never compute with them, so the exact float
  semantics is irrelevant to every property below.
* Each route handler becomes a function from the state to
  `Except ApiErr (result × state)`; a thrown/returned error carries the
  HTTP status class and, for the capacity error, the reported
  `available` figure (the code interpolates it into the message
  "Not enough available. left=...").
* `prisma.<table>.update where id` / `delete where id` are modelled as a
  map / filter over the rows (ids are unique in every reachable state).
* The DB-level `ON DELETE CASCADE` of `ZoneObject.zoneInventoryId →
  ZoneInventory.id` (migration 20250817112728) is part of the delete
  operations.
* Zone / floor existence (foreign keys to the Zone and Floor tables) is
  outside the modelled fragment: the claims below never exercise a
  missing zone, and a violated FK in the code surfaces as an unhandled
  500 without state change.
-/

namespace OfficeServer

/-- A row of the `FloorInventory` table: total units of one catalog item
available on a floor (`count INTEGER NOT NULL DEFAULT 0`). -/
structure FloorInventoryRow where
  id : Nat
  floorId : Nat
  catalogId : String
  count : Int
  deriving DecidableEq, Repr

/-- A row of the `ZoneInventory` table: units of a floor-inventory item
attached to a zone (`quantity INTEGER NOT NULL DEFAULT 0`). -/
structure ZoneInventoryRow where
  id : Nat
  zoneId : Nat
  floorInventoryId : Nat
  quantity : Int
  deriving DecidableEq, Repr

/-- A row of the `ZoneObject` table: one placed object instance. -/
structure ZoneObjectRow where
  id : Nat
  zoneId : Nat
  zoneInventoryId : Nat
  x : Rat
  y : Rat
  rotation : Rat
  deriving DecidableEq, Repr

/-- The database state relevant to the inventory subsystem. -/
structure Db where
  floorInventory : List FloorInventoryRow
  zoneInventory : List ZoneInventoryRow
  zoneObjects : List ZoneObjectRow
  nextZoneInventoryId : Nat
  nextZoneObjectId : Nat
  deriving DecidableEq, Repr

/-- Errors returned by the handlers. `badRequest` = HTTP 400,
`notFound` = 404 (including Prisma P2025 translations), `conflict` = the
409 raised for a duplicate attachment, `capacityExceeded` = the 409
raised as "Not enough available. left=..." carrying the computed
available figure. `internalError` marks branches that are unreachable
under the database's foreign-key constraints (the code would raise an
unhandled 500 there). -/
inductive ApiErr where
  | badRequest (msg : String)
  | notFound (msg : String)
  | conflict (msg : String)
  | capacityExceeded (available : Int)
  | internalError (msg : String)
  deriving DecidableEq, Repr

instance {ε α : Type} [DecidableEq ε] [DecidableEq α] :
    DecidableEq (Except ε α) := fun a b =>
  match a, b with
  | .ok x, .ok y =>
    if h : x = y then .isTrue (by rw [h])
    else .isFalse (by intro hc; cases hc; exact h rfl)
  | .error x, .error y =>
    if h : x = y then .isTrue (by rw [h])
    else .isFalse (by intro hc; cases hc; exact h rfl)
  | .ok _, .error _ => .isFalse (by intro hc; cases hc)
  | .error _, .ok _ => .isFalse (by intro hc; cases hc)

/-- `prisma.floorInventory.findUnique({ where: { id } })`. -/
def findFloorInventory (s : Db) (id : Nat) : Option FloorInventoryRow :=
  s.floorInventory.find? (fun r => r.id == id)

/-- `prisma.zoneInventory.findUnique({ where: { id } })`. -/
def findZoneInventoryById (s : Db) (id : Nat) : Option ZoneInventoryRow :=
  s.zoneInventory.find? (fun r => r.id == id)

/-- `prisma.zoneInventory.findUnique({ where: { zoneId_floorInventoryId } })`. -/
def findZoneInventoryByKey (s : Db) (zoneId floorInventoryId : Nat) :
    Option ZoneInventoryRow :=
  s.zoneInventory.find?
    (fun r => r.zoneId == zoneId && r.floorInventoryId == floorInventoryId)

/-- `prisma.zoneObject.findUnique({ where: { id } })`. -/
def findZoneObjectById (s : Db) (id : Nat) : Option ZoneObjectRow :=
  s.zoneObjects.find? (fun r => r.id == id)

/-- `aggregate({ where: { floorInventoryId }, _sum: { quantity } })` over
a row list; the `?? 0` on a null sum is the empty-list case. -/
def sumQ (l : List ZoneInventoryRow) (floorInventoryId : Nat) : Int :=
  ((l.filter (fun r => r.floorInventoryId == floorInventoryId)).map
    (fun r => r.quantity)).sum

/-- `aggregate({ where: { floorInventoryId, NOT: { id } }, _sum: ... })`. -/
def sumQexc (l : List ZoneInventoryRow) (floorInventoryId id : Nat) : Int :=
  ((l.filter (fun r => r.floorInventoryId == floorInventoryId && r.id != id)).map
    (fun r => r.quantity)).sum

/-- Sum of allocation quantities referencing a floor-inventory entry. -/
def sumQuantity (s : Db) (floorInventoryId : Nat) : Int :=
  sumQ s.zoneInventory floorInventoryId

/-- `prisma.zoneInventory.update({ where: { id }, data: { quantity } })`:
sets the quantity of the row with the given id. -/
def setQuantity (l : List ZoneInventoryRow) (id : Nat) (q : Int) :
    List ZoneInventoryRow :=
  l.map (fun r => if r.id == id then { r with quantity := q } else r)

/-- `update({ where: { id }, data: { quantity: { increment / decrement } } })`. -/
def incQuantity (l : List ZoneInventoryRow) (id : Nat) (d : Int) :
    List ZoneInventoryRow :=
  l.map (fun r => if r.id == id then { r with quantity := r.quantity + d } else r)

/-! ## Floor inventory routes -/

/-- `PATCH /offices/:officeId/floors/:floorId/inventory/:id` — update the
stock count. Validation: `count != null && (!Number.isInteger(count) ||
count < 0)` → 400; Prisma P2025 (row absent) → 404. No check against
existing allocations is performed. -/
def patchFloorInventory (s : Db) (id : Nat) (count? : Option Int) :
    Except ApiErr (FloorInventoryRow × Db) :=
  match count? with
  | some c =>
    if c < 0 then .error (.badRequest "count must be integer >= 0")
    else
      match findFloorInventory s id with
      | none => .error (.notFound "Inventory item not found")
      | some fi =>
        let fi' := { fi with count := c }
        .ok (fi', { s with floorInventory :=
          s.floorInventory.map (fun r => if r.id == id then { r with count := c } else r) })
  | none =>
    match findFloorInventory s id with
    | none => .error (.notFound "Inventory item not found")
    | some fi => .ok (fi, s)

/-- First statement of
`DELETE /offices/:officeId/floors/:floorId/inventory/:id`:
`prisma.zoneInventory.deleteMany({ where: { floorInventoryId: id } })`,
together with the DB-level cascade that removes the zone objects of the
deleted zone-inventory rows. This is a top-level Prisma call of its own:
the route does not wrap it in a transaction with the statement that
follows. -/
def deleteFloorInventoryDependents (s : Db) (id : Nat) : Db :=
  { s with
    zoneInventory := s.zoneInventory.filter (fun r => r.floorInventoryId != id),
    zoneObjects := s.zoneObjects.filter (fun o =>
      !(s.zoneInventory.any (fun r =>
        r.floorInventoryId == id && r.id == o.zoneInventoryId))) }

/-- Second statement of the same route:
`prisma.floorInventory.delete({ where: { id } })`; P2025 → 404. -/
def deleteFloorInventoryEntry (s : Db) (id : Nat) : Except ApiErr Db :=
  match findFloorInventory s id with
  | none => .error (.notFound "Inventory item not found")
  | some _ =>
    .ok { s with floorInventory := s.floorInventory.filter (fun r => r.id != id) }

/-- The whole `DELETE .../inventory/:id` handler body: the two Prisma
calls in sequence (note: two separate implicit transactions in the code,
not one `prisma.$transaction`). -/
def deleteFloorInventoryRoute (s : Db) (id : Nat) : Except ApiErr Db :=
  deleteFloorInventoryEntry (deleteFloorInventoryDependents s id) id

/-- Output row of `GET .../inventory/with-usage` (the catalog join is
omitted: it copies immutable catalog fields). -/
structure UsageRow where
  id : Nat
  floorId : Nat
  catalogId : String
  count : Int
  used : Int
  available : Int
  deriving DecidableEq, Repr

/-- `GET /offices/:officeId/floors/:floorId/inventory/with-usage`: for
each floor-inventory item of the floor, `used` is the aggregated
allocation sum and `available = Math.max(count - used, 0)`. A pure read:
the handler performs no writes. (The code orders by catalog display
name; ordering is irrelevant to the verified properties.) -/
def floorInventoryWithUsage (s : Db) (floorId : Nat) : List UsageRow :=
  (s.floorInventory.filter (fun r => r.floorId == floorId)).map (fun it =>
    let used := sumQuantity s it.id
    { id := it.id, floorId := it.floorId, catalogId := it.catalogId,
      count := it.count, used := used,
      available := max (it.count - used) 0 })

/-! ## Zone inventory routes -/

/-- `POST /offices/:officeId/floors/:floorId/zones/:zoneId/inventory`
(Allocate). Validation: quantity must be a non-negative integer (400).
Inside `prisma.$transaction`: load the floor-inventory entry (404 if
absent), aggregate `used`, `available = fi.count - used`, reject with
the 409 capacity error carrying `available` if `quantity > available`,
reject with 409 "Already attached, use PATCH" if an allocation for
(zoneId, floorInventoryId) exists, otherwise insert the new row. -/
def postZoneInventory (s : Db) (zoneId floorInventoryId : Nat) (quantity : Int) :
    Except ApiErr (ZoneInventoryRow × Db) :=
  if quantity < 0 then .error (.badRequest "quantity must be int >= 0")
  else
    match findFloorInventory s floorInventoryId with
    | none => .error (.notFound "Inventory item not found")
    | some fi =>
      let used := sumQuantity s floorInventoryId
      let available := fi.count - used
      if quantity > available then .error (.capacityExceeded available)
      else
        match findZoneInventoryByKey s zoneId floorInventoryId with
        | some _ => .error (.conflict "Already attached, use PATCH")
        | none =>
          let row : ZoneInventoryRow :=
            { id := s.nextZoneInventoryId, zoneId := zoneId,
              floorInventoryId := floorInventoryId, quantity := quantity }
          .ok (row, { s with
            zoneInventory := s.zoneInventory ++ [row],
            nextZoneInventoryId := s.nextZoneInventoryId + 1 })

/-- `PATCH /offices/.../zones/:zoneId/inventory/:id` (Re-allocate).
Validation: quantity must be a non-negative integer (400). Inside
`prisma.$transaction`: load the row with its floor-inventory parent (404
if the row is absent; the parent always exists by the FK, the code would
crash otherwise — `internalError`), aggregate `usedOthers` excluding
this row, `availableForThis = count - usedOthers`, reject with the 409
capacity error carrying `availableForThis` if `quantity >
availableForThis`, otherwise update the quantity. -/
def patchZoneInventory (s : Db) (id : Nat) (quantity : Int) :
    Except ApiErr (ZoneInventoryRow × Db) :=
  if quantity < 0 then .error (.badRequest "quantity must be int >= 0")
  else
    match findZoneInventoryById s id with
    | none => .error (.notFound "Not found")
    | some row =>
      match findFloorInventory s row.floorInventoryId with
      | none => .error (.internalError "missing floorInventory parent")
      | some fi =>
        let usedOthers := sumQexc s.zoneInventory row.floorInventoryId id
        let availableForThis := fi.count - usedOthers
        if quantity > availableForThis then
          .error (.capacityExceeded availableForThis)
        else
          .ok ({ row with quantity := quantity },
               { s with zoneInventory := setQuantity s.zoneInventory id quantity })

/-- `DELETE /offices/.../zones/:zoneId/inventory/:id` (Deallocate):
`prisma.zoneInventory.delete({ where: { id } })`, P2025 → 404; the DB
cascade removes the zone objects referencing the deleted row. -/
def deleteZoneInventory (s : Db) (id : Nat) : Except ApiErr Db :=
  match findZoneInventoryById s id with
  | none => .error (.notFound "Not found")
  | some _ =>
    .ok { s with
      zoneInventory := s.zoneInventory.filter (fun r => r.id != id),
      zoneObjects := s.zoneObjects.filter (fun o => o.zoneInventoryId != id) }

/-! ## Zone object routes -/

/-- `POST /offices/.../zones/:zoneId/objects` (Place). Inside
`prisma.$transaction`: load the zone-inventory row (404 if absent), 400
if it belongs to another zone, then `update ... quantity: { increment:
1 }` and insert the object (rotation defaults to 0 when not a number).
No capacity check is performed. -/
def postZoneObject (s : Db) (zoneId zoneInventoryId : Nat) (x y : Rat)
    (rot? : Option Rat) : Except ApiErr (ZoneObjectRow × Db) :=
  match findZoneInventoryById s zoneInventoryId with
  | none => .error (.notFound "Zone inventory not found")
  | some zi =>
    if zi.zoneId != zoneId then
      .error (.badRequest "zoneInventoryId does not belong to this zone")
    else
      let obj : ZoneObjectRow :=
        { id := s.nextZoneObjectId, zoneId := zoneId,
          zoneInventoryId := zoneInventoryId, x := x, y := y,
          rotation := rot?.getD 0 }
      .ok (obj, { s with
        zoneInventory := incQuantity s.zoneInventory zoneInventoryId 1,
        zoneObjects := s.zoneObjects ++ [obj],
        nextZoneObjectId := s.nextZoneObjectId + 1 })

/-- `PATCH /offices/.../zones/:zoneId/objects/:id` (Move/Rotate): 400 on
an empty payload, 404 if the object is absent, 400 if it belongs to
another zone, otherwise update the provided spatial fields. -/
def patchZoneObject (s : Db) (zoneId id : Nat)
    (x? y? rot? : Option Rat) : Except ApiErr (ZoneObjectRow × Db) :=
  if x?.isNone && y?.isNone && rot?.isNone then
    .error (.badRequest "No fields to update")
  else
    match findZoneObjectById s id with
    | none => .error (.notFound "Object not found")
    | some obj =>
      if obj.zoneId != zoneId then
        .error (.badRequest "Object does not belong to this zone")
      else
        let upd := fun (o : ZoneObjectRow) =>
          { o with x := x?.getD o.x, y := y?.getD o.y,
                   rotation := rot?.getD o.rotation }
        .ok (upd obj, { s with
          zoneObjects := s.zoneObjects.map (fun o => if o.id == id then upd o else o) })

/-- `DELETE /offices/.../zones/:zoneId/objects/:id` (Remove). Inside
`prisma.$transaction`: load the object (404 if absent), 400 if it
belongs to another zone, delete it, then `update ... quantity:
{ decrement: 1 }` on its zone-inventory row. The `.catch` around the
decrement swallows the failure exactly when the row no longer exists
(re-read gives null) — on a plain INTEGER column the decrement itself
never fails, so the update is a map that decrements when the row is
present and is a no-op otherwise. -/
def deleteZoneObject (s : Db) (zoneId id : Nat) : Except ApiErr Db :=
  match findZoneObjectById s id with
  | none => .error (.notFound "Object not found")
  | some obj =>
    if obj.zoneId != zoneId then
      .error (.badRequest "Object does not belong to this zone")
    else
      .ok { s with
        zoneObjects := s.zoneObjects.filter (fun o => o.id != id),
        zoneInventory := incQuantity s.zoneInventory obj.zoneInventoryId (-1) }

/-! ## Allocation-ledger operation sequences -/

/-- The allocation-ledger operations on zone inventory. -/
inductive AllocOp where
  | allocate (zoneId floorInventoryId : Nat) (quantity : Int)
  | reallocate (id : Nat) (quantity : Int)
  | deallocate (id : Nat)
  deriving DecidableEq, Repr

/-- Apply one allocation-ledger operation; a failed operation leaves the
state unchanged (the handler's transaction rolls back / nothing was
written). -/
def applyAllocOp (s : Db) : AllocOp → Db
  | .allocate z f q =>
    match postZoneInventory s z f q with
    | .ok (_, s') => s'
    | .error _ => s
  | .reallocate i q =>
    match patchZoneInventory s i q with
    | .ok (_, s') => s'
    | .error _ => s
  | .deallocate i =>
    match deleteZoneInventory s i with
    | .ok s' => s'
    | .error _ => s

/-- Run a sequence of allocation-ledger operations. -/
def runAllocOps (s : Db) : List AllocOp → Db
  | [] => s
  | op :: ops => runAllocOps (applyAllocOp s op) ops

/-- Well-formedness of a database state: primary keys are unique and the
auto-increment counters are ahead of every existing id. Holds for every
state reachable through the handlers. -/
def WF (s : Db) : Prop :=
  (s.floorInventory.map (fun r => r.id)).Nodup ∧
  (s.zoneInventory.map (fun r => r.id)).Nodup ∧
  (∀ r ∈ s.zoneInventory, r.id < s.nextZoneInventoryId) ∧
  (s.zoneObjects.map (fun r => r.id)).Nodup ∧
  (∀ r ∈ s.zoneObjects, r.id < s.nextZoneObjectId)

instance : DecidablePred WF := fun s => by
  unfold WF; infer_instance

/-- The allocation-ledger invariant: all allocation quantities are
non-negative and, per floor-inventory entry, their sum does not exceed
the entry's count. -/
def AllocInv (s : Db) : Prop :=
  (∀ r ∈ s.zoneInventory, 0 ≤ r.quantity) ∧
  (∀ fi ∈ s.floorInventory, sumQuantity s fi.id ≤ fi.count)

instance : DecidablePred AllocInv := fun s => by
  unfold AllocInv; infer_instance

/-! ## Concrete example states used in the scenario checks

Ids: floor 1, the "chair" floor-inventory entry has id 1 and count 5,
zone A is zone id 10, zone B is zone id 20. -/

/-- Fresh floor stock: FloorInventory(id 1, floor 1, "chair", count 5),
no allocations, no objects. -/
def exDbA : Db := ⟨[⟨1, 1, "chair", 5⟩], [], [], 1, 1⟩

/-- `exDbA` after allocating quantity 3 to zone A. -/
def exDbA1 : Db := ⟨[⟨1, 1, "chair", 5⟩], [⟨1, 10, 1, 3⟩], [], 2, 1⟩

/-- `exDbA1` after allocating quantity 2 to zone B. -/
def exDbA2 : Db := ⟨[⟨1, 1, "chair", 5⟩], [⟨1, 10, 1, 3⟩, ⟨2, 20, 1, 2⟩], [], 3, 1⟩

/-- Scenario D state: count 5, this allocation (id 1, zone A) holds 3,
the other zone holds 2. -/
def exDbD : Db := ⟨[⟨1, 1, "chair", 5⟩], [⟨1, 10, 1, 3⟩, ⟨2, 20, 1, 2⟩], [], 3, 1⟩

/-- `exDbD` after re-allocating allocation 1 to quantity 1. -/
def exDbD1 : Db := ⟨[⟨1, 1, "chair", 5⟩], [⟨1, 10, 1, 1⟩, ⟨2, 20, 1, 2⟩], [], 3, 1⟩

/-- An allocation (id 1, zone A) with quantity 3 and no objects yet. -/
def exDbPlace : Db := ⟨[⟨1, 1, "chair", 5⟩], [⟨1, 10, 1, 3⟩], [], 2, 1⟩

/-- `exDbPlace` after placing one object: the code *increments* the
allocation's quantity to 4. -/
def exDbPlaced : Db :=
  ⟨[⟨1, 1, "chair", 5⟩], [⟨1, 10, 1, 4⟩], [⟨1, 10, 1, 0, 0, 0⟩], 2, 2⟩

/-- An allocation of quantity 4 on which 4 objects are already placed
(the exhausted-capacity state of Scenario B). -/
def exDbFull : Db :=
  ⟨[⟨1, 1, "chair", 5⟩], [⟨1, 10, 1, 4⟩],
    [⟨1, 10, 1, 0, 0, 0⟩, ⟨2, 10, 1, 0, 0, 0⟩, ⟨3, 10, 1, 0, 0, 0⟩,
     ⟨4, 10, 1, 0, 0, 0⟩], 2, 5⟩

/-- `exDbFull` after the code accepts a fifth placement. -/
def exDbFullAfter : Db :=
  ⟨[⟨1, 1, "chair", 5⟩], [⟨1, 10, 1, 5⟩],
    [⟨1, 10, 1, 0, 0, 0⟩, ⟨2, 10, 1, 0, 0, 0⟩, ⟨3, 10, 1, 0, 0, 0⟩,
     ⟨4, 10, 1, 0, 0, 0⟩, ⟨5, 10, 1, 0, 0, 0⟩], 2, 6⟩

/-- A stock entry with two dependent allocations, each with one placed
object (the Scenario C state). -/
def exDbCascade : Db :=
  ⟨[⟨1, 1, "chair", 5⟩], [⟨1, 10, 1, 2⟩, ⟨2, 20, 1, 2⟩],
    [⟨1, 10, 1, 0, 0, 0⟩, ⟨2, 20, 2, 0, 0, 0⟩], 3, 3⟩

/-- `exDbPlaced` after removing the placement again: the quantity
returns to 3; only the object-id sequence has advanced. -/
def exDbPlaceBack : Db := ⟨[⟨1, 1, "chair", 5⟩], [⟨1, 10, 1, 3⟩], [], 2, 2⟩

/-- Step 1 of the negative-quantity trace: `exDbA` after allocating
quantity 0 to zone A. -/
def exN1 : Db := ⟨[⟨1, 1, "chair", 5⟩], [⟨1, 10, 1, 0⟩], [], 2, 1⟩

/-- Step 2: after placing one object (quantity incremented to 1). -/
def exN2 : Db :=
  ⟨[⟨1, 1, "chair", 5⟩], [⟨1, 10, 1, 1⟩], [⟨1, 10, 1, 0, 0, 0⟩], 2, 2⟩

/-- Step 3: after re-allocating the allocation back to quantity 0 while
the object remains placed. -/
def exN3 : Db :=
  ⟨[⟨1, 1, "chair", 5⟩], [⟨1, 10, 1, 0⟩], [⟨1, 10, 1, 0, 0, 0⟩], 2, 2⟩

/-- Step 4: after removing the placement the decrement drives the
quantity to −1. -/
def exN4 : Db := ⟨[⟨1, 1, "chair", 5⟩], [⟨1, 10, 1, -1⟩], [], 2, 2⟩

/-- A state whose allocation sum (5) exceeds a lowered count: used by
the update-count and usage-report checks. -/
def exDbOver : Db :=
  ⟨[⟨1, 1, "chair", 5⟩], [⟨1, 10, 1, 3⟩, ⟨2, 20, 1, 2⟩], [], 3, 1⟩

/-! ## List-level lemmas about the aggregation and update primitives -/

theorem sumQ_nil (f : Nat) : sumQ [] f = 0 := rfl

theorem sumQ_cons (r : ZoneInventoryRow) (t : List ZoneInventoryRow) (f : Nat) :
    sumQ (r :: t) f =
      (if r.floorInventoryId == f then r.quantity else 0) + sumQ t f := by
  simp only [sumQ, List.filter_cons]
  cases h : r.floorInventoryId == f <;> simp [h]

theorem sumQexc_cons (r : ZoneInventoryRow) (t : List ZoneInventoryRow)
    (f id : Nat) :
    sumQexc (r :: t) f id =
      (if r.floorInventoryId == f && r.id != id then r.quantity else 0) +
        sumQexc t f id := by
  simp only [sumQexc, List.filter_cons]
  cases h : r.floorInventoryId == f && r.id != id <;> simp [h]

theorem sumQ_append (l₁ l₂ : List ZoneInventoryRow) (f : Nat) :
    sumQ (l₁ ++ l₂) f = sumQ l₁ f + sumQ l₂ f := by
  simp [sumQ, List.filter_append]

theorem sumQ_singleton (r : ZoneInventoryRow) (f : Nat) :
    sumQ [r] f = if r.floorInventoryId == f then r.quantity else 0 := by
  rw [sumQ_cons, sumQ_nil, add_zero]

/-- Deleting the row with a given id realises the "sum excluding this
row" aggregate. -/
theorem sumQ_filter_ne (l : List ZoneInventoryRow) (f id : Nat) :
    sumQ (l.filter (fun r => r.id != id)) f = sumQexc l f id := by
  induction l with
  | nil => rfl
  | cons r t ih =>
    rw [List.filter_cons, sumQexc_cons]
    cases h : r.id != id
    · simp only [h, Bool.and_false, Bool.false_eq_true, if_false, zero_add]
      exact ih
    · simp only [h, Bool.and_true, if_true, sumQ_cons, ih]

/-- With all quantities non-negative, excluding a row can only shrink
the sum. -/
theorem sumQexc_le_sumQ (l : List ZoneInventoryRow) (f id : Nat)
    (h : ∀ r ∈ l, 0 ≤ r.quantity) : sumQexc l f id ≤ sumQ l f := by
  induction l with
  | nil => exact le_refl 0
  | cons r t ih =>
    rw [sumQexc_cons, sumQ_cons]
    have hr := h r (List.mem_cons_self r t)
    have ht := ih (fun a ha => h a (List.mem_cons_of_mem r ha))
    cases hf : r.floorInventoryId == f
    · simpa [hf] using ht
    · cases hid : r.id != id
      · simp only [hf, hid, Bool.and_false, if_false, if_true]
        omega
      · simp only [hf, hid, Bool.and_true, if_true]
        omega

theorem setQuantity_nil (id : Nat) (q : Int) : setQuantity [] id q = [] := rfl

theorem setQuantity_cons (r : ZoneInventoryRow) (t : List ZoneInventoryRow)
    (id : Nat) (q : Int) :
    setQuantity (r :: t) id q =
      (if r.id == id then { r with quantity := q } else r) :: setQuantity t id q := by
  simp [setQuantity]

theorem setQuantity_of_forall_ne (t : List ZoneInventoryRow) (id : Nat) (q : Int)
    (h : ∀ r ∈ t, r.id ≠ id) : setQuantity t id q = t := by
  induction t with
  | nil => rfl
  | cons r t ih =>
    rw [setQuantity_cons]
    have hr : (r.id == id) = false := by
      simp [h r (List.mem_cons_self r t)]
    rw [if_neg (by simp [hr]), ih (fun a ha => h a (List.mem_cons_of_mem r ha))]

theorem sumQexc_of_forall_ne (t : List ZoneInventoryRow) (f id : Nat)
    (h : ∀ r ∈ t, r.id ≠ id) : sumQexc t f id = sumQ t f := by
  induction t with
  | nil => rfl
  | cons r t ih =>
    rw [sumQexc_cons, sumQ_cons,
      ih (fun a ha => h a (List.mem_cons_of_mem r ha))]
    have hr : (r.id != id) = true := by
      simp [h r (List.mem_cons_self r t)]
    rw [hr, Bool.and_true]

theorem sumQ_setQuantity_of_forall (l : List ZoneInventoryRow) (id : Nat)
    (q : Int) (g : Nat) (h : ∀ r ∈ l, r.id = id → r.floorInventoryId ≠ g) :
    sumQ (setQuantity l id q) g = sumQ l g := by
  induction l with
  | nil => rfl
  | cons r t ih =>
    rw [setQuantity_cons]
    cases hid : r.id == id
    · rw [if_neg (by simp [hid]), sumQ_cons, sumQ_cons,
        ih (fun a ha => h a (List.mem_cons_of_mem r ha))]
    · rw [if_pos (by simp_all), sumQ_cons, sumQ_cons,
        ih (fun a ha => h a (List.mem_cons_of_mem r ha))]
      have : (r.floorInventoryId == g) = false := by
        simp [h r (List.mem_cons_self r t) (by simpa using hid)]
      simp [this]

/-- Under nodup ids, a member id equal to the head's id has no
occurrence in the tail. -/
theorem forall_ne_of_nodup_head (r : ZoneInventoryRow)
    (t : List ZoneInventoryRow) (id : Nat)
    (hnotin : r.id ∉ t.map (fun x => x.id)) (hre : r.id = id) :
    ∀ a ∈ t, a.id ≠ id := by
  intro a ha hae
  apply hnotin
  rw [hre, ← hae]
  exact List.mem_map_of_mem (fun x => x.id) ha

/-- The central re-allocation accounting identity: updating the unique
row carrying `id` sets the per-stock sum to "sum of the others plus the
new quantity". -/
theorem sumQ_setQuantity (l : List ZoneInventoryRow) (id : Nat) (q : Int)
    (f : Nat) (hnd : (l.map (fun r => r.id)).Nodup)
    (row : ZoneInventoryRow) (hm : row ∈ l) (hid : row.id = id)
    (hf : row.floorInventoryId = f) :
    sumQ (setQuantity l id q) f = sumQexc l f id + q := by
  induction l with
  | nil => cases hm
  | cons r t ih =>
    rw [setQuantity_cons, sumQexc_cons]
    rw [List.map_cons, List.nodup_cons] at hnd
    cases hid' : r.id == id
    · have hrne : r.id ≠ id := by simpa using hid'
      have hrow : row ∈ t := by
        rcases List.mem_cons.mp hm with h | h
        · exact absurd (h ▸ hid) hrne
        · exact h
      rw [if_neg (by simp [hid']), sumQ_cons, ih hnd.2 hrow]
      have hni : (r.id != id) = true := by simp [hrne]
      rw [hni, Bool.and_true]
      ring
    · have hre : r.id = id := by simpa using hid'
      have hrid : ∀ a ∈ t, a.id ≠ id := forall_ne_of_nodup_head r t id hnd.1 hre
      have hrow : row = r := by
        rcases List.mem_cons.mp hm with h | h
        · exact h
        · exact absurd hid (hrid row h)
      have hrf : r.floorInventoryId = f := by rw [← hrow, hf]
      have hni : (r.id != id) = false := by simp [hre]
      rw [setQuantity_of_forall_ne t id q hrid,
        sumQexc_of_forall_ne t f id hrid, hni, Bool.and_false]
      simp [sumQ_cons, hrf]
      ring

theorem setQuantity_map_id (l : List ZoneInventoryRow) (id : Nat) (q : Int) :
    (setQuantity l id q).map (fun r => r.id) = l.map (fun r => r.id) := by
  induction l with
  | nil => rfl
  | cons r t ih =>
    rw [setQuantity_cons, List.map_cons, List.map_cons, ih]
    cases h : r.id == id <;> simp

theorem mem_setQuantity (l : List ZoneInventoryRow) (id : Nat) (q : Int)
    (r' : ZoneInventoryRow) (h : r' ∈ setQuantity l id q) :
    ∃ r ∈ l, r'.id = r.id ∧ r'.floorInventoryId = r.floorInventoryId ∧
      (r'.quantity = q ∨ r'.quantity = r.quantity) := by
  rcases List.mem_map.mp h with ⟨r, hr, hEq⟩
  refine ⟨r, hr, ?_⟩
  by_cases hc : (r.id == id) = true
  · rw [if_pos hc] at hEq
    exact ⟨by rw [← hEq], by rw [← hEq], Or.inl (by rw [← hEq])⟩
  · rw [if_neg hc] at hEq
    exact ⟨by rw [← hEq], by rw [← hEq], Or.inr (by rw [← hEq])⟩

theorem incQuantity_cons (r : ZoneInventoryRow) (t : List ZoneInventoryRow)
    (id : Nat) (d : Int) :
    incQuantity (r :: t) id d =
      (if r.id == id then { r with quantity := r.quantity + d } else r) ::
        incQuantity t id d := by
  simp [incQuantity]

theorem incQuantity_of_forall_ne (t : List ZoneInventoryRow) (id : Nat)
    (d : Int) (h : ∀ r ∈ t, r.id ≠ id) : incQuantity t id d = t := by
  induction t with
  | nil => rfl
  | cons r t ih =>
    rw [incQuantity_cons, if_neg (by simp [h r (List.mem_cons_self r t)]),
      ih (fun a ha => h a (List.mem_cons_of_mem r ha))]

theorem incQuantity_map_id (l : List ZoneInventoryRow) (id : Nat) (d : Int) :
    (incQuantity l id d).map (fun r => r.id) = l.map (fun r => r.id) := by
  induction l with
  | nil => rfl
  | cons r t ih =>
    rw [incQuantity_cons, List.map_cons, List.map_cons, ih]
    cases h : r.id == id <;> simp

theorem mem_incQuantity (l : List ZoneInventoryRow) (id : Nat) (d : Int)
    (r' : ZoneInventoryRow) (h : r' ∈ incQuantity l id d) :
    ∃ r ∈ l, r'.id = r.id ∧ r'.floorInventoryId = r.floorInventoryId ∧
      (r'.quantity = r.quantity + d ∨ r'.quantity = r.quantity) := by
  rcases List.mem_map.mp h with ⟨r, hr, hEq⟩
  refine ⟨r, hr, ?_⟩
  by_cases hc : (r.id == id) = true
  · rw [if_pos hc] at hEq
    exact ⟨by rw [← hEq], by rw [← hEq], Or.inl (by rw [← hEq])⟩
  · rw [if_neg hc] at hEq
    exact ⟨by rw [← hEq], by rw [← hEq], Or.inr (by rw [← hEq])⟩

theorem incQuantity_incQuantity (l : List ZoneInventoryRow) (id : Nat)
    (a b : Int) :
    incQuantity (incQuantity l id a) id b = incQuantity l id (a + b) := by
  induction l with
  | nil => rfl
  | cons r t ih =>
    rw [incQuantity_cons, incQuantity_cons, incQuantity_cons, ih]
    cases h : r.id == id
    · simp [h]
    · simp [h, add_assoc]

theorem incQuantity_zero (l : List ZoneInventoryRow) (id : Nat) :
    incQuantity l id 0 = l := by
  induction l with
  | nil => rfl
  | cons r t ih =>
    rw [incQuantity_cons, ih]
    cases h : r.id == id <;> simp [h]

theorem sumQ_incQuantity_mem (l : List ZoneInventoryRow) (id : Nat) (d : Int)
    (f : Nat) (hnd : (l.map (fun r => r.id)).Nodup)
    (row : ZoneInventoryRow) (hm : row ∈ l) (hid : row.id = id)
    (hf : row.floorInventoryId = f) :
    sumQ (incQuantity l id d) f = sumQ l f + d := by
  induction l with
  | nil => cases hm
  | cons r t ih =>
    rw [List.map_cons, List.nodup_cons] at hnd
    rw [incQuantity_cons]
    cases hid' : r.id == id
    · have hrne : r.id ≠ id := by simpa using hid'
      have hrow : row ∈ t := by
        rcases List.mem_cons.mp hm with h | h
        · exact absurd (h ▸ hid) hrne
        · exact h
      rw [if_neg (by simp [hid']), sumQ_cons, sumQ_cons, ih hnd.2 hrow]
      ring
    · have hre : r.id = id := by simpa using hid'
      have hrid : ∀ a ∈ t, a.id ≠ id := forall_ne_of_nodup_head r t id hnd.1 hre
      have hrow : row = r := by
        rcases List.mem_cons.mp hm with h | h
        · exact h
        · exact absurd hid (hrid row h)
      have hrf : r.floorInventoryId = f := by rw [← hrow, hf]
      rw [incQuantity_of_forall_ne t id d hrid]
      simp [sumQ_cons, hrf]
      ring

/-- `find?` on a list whose member ids all differ from the searched id. -/
theorem find?_id_of_forall_ne {α : Type} (f : α → Nat) (l : List α) (id : Nat)
    (h : ∀ r ∈ l, f r ≠ id) : l.find? (fun r => f r == id) = none := by
  induction l with
  | nil => rfl
  | cons r t ih =>
    have hr : (f r == id) = false := by simp [h r (List.mem_cons_self r t)]
    rw [List.find?_cons, hr]
    exact ih (fun a ha => h a (List.mem_cons_of_mem r ha))

theorem find?_append_of_forall_ne {α : Type} (f : α → Nat) (l : List α)
    (r : α) (id : Nat) (h : ∀ a ∈ l, f a ≠ id) (hr : f r = id) :
    (l ++ [r]).find? (fun a => f a == id) = some r := by
  induction l with
  | nil =>
    have hr' : (f r == id) = true := by simp [hr]
    rw [List.nil_append, List.find?_cons, hr']
  | cons a t ih =>
    have ha : (f a == id) = false := by simp [h a (List.mem_cons_self a t)]
    rw [List.cons_append, List.find?_cons, ha]
    exact ih (fun b hb => h b (List.mem_cons_of_mem a hb))

/-- A successful `findFloorInventory` returns a member with the searched
id. -/
theorem findFloorInventory_eq_some (s : Db) (id : Nat) (fi : FloorInventoryRow)
    (h : findFloorInventory s id = some fi) :
    fi ∈ s.floorInventory ∧ fi.id = id := by
  refine ⟨List.mem_of_find?_eq_some h, ?_⟩
  have := List.find?_some h
  simpa using this

theorem findZoneInventoryById_eq_some (s : Db) (id : Nat)
    (zi : ZoneInventoryRow) (h : findZoneInventoryById s id = some zi) :
    zi ∈ s.zoneInventory ∧ zi.id = id := by
  refine ⟨List.mem_of_find?_eq_some h, ?_⟩
  have := List.find?_some h
  simpa using this

theorem findZoneObjectById_eq_some (s : Db) (id : Nat)
    (o : ZoneObjectRow) (h : findZoneObjectById s id = some o) :
    o ∈ s.zoneObjects ∧ o.id = id := by
  refine ⟨List.mem_of_find?_eq_some h, ?_⟩
  have := List.find?_some h
  simpa using this

/-! ## Inversion of successful handler runs -/

theorem postZoneInventory_ok_inv (s : Db) (zoneId fiId : Nat) (q : Int)
    (row : ZoneInventoryRow) (s' : Db)
    (h : postZoneInventory s zoneId fiId q = .ok (row, s')) :
    0 ≤ q ∧ ∃ fi, findFloorInventory s fiId = some fi ∧
      q ≤ fi.count - sumQuantity s fiId ∧
      findZoneInventoryByKey s zoneId fiId = none ∧
      row = { id := s.nextZoneInventoryId, zoneId := zoneId,
              floorInventoryId := fiId, quantity := q } ∧
      s' = { s with
        zoneInventory := s.zoneInventory ++ [row],
        nextZoneInventoryId := s.nextZoneInventoryId + 1 } := by
  unfold postZoneInventory at h
  simp only [] at h
  split at h
  · cases h
  next h0 =>
    split at h
    · cases h
    next fi hfi =>
      split at h
      · cases h
      next hcap =>
        split at h
        next zi hk => cases h
        next hk =>
          cases h
          exact ⟨by omega, fi, hfi, by omega, hk, rfl, rfl⟩

theorem patchZoneInventory_ok_inv (s : Db) (id : Nat) (q : Int)
    (row' : ZoneInventoryRow) (s' : Db)
    (h : patchZoneInventory s id q = .ok (row', s')) :
    0 ≤ q ∧ ∃ row fi, findZoneInventoryById s id = some row ∧
      findFloorInventory s row.floorInventoryId = some fi ∧
      q ≤ fi.count - sumQexc s.zoneInventory row.floorInventoryId id ∧
      row' = { row with quantity := q } ∧
      s' = { s with zoneInventory := setQuantity s.zoneInventory id q } := by
  unfold patchZoneInventory at h
  simp only [] at h
  split at h
  · cases h
  next h0 =>
    split at h
    · cases h
    next row hrow =>
      split at h
      · cases h
      next fi hfi =>
        split at h
        · cases h
        next hcap =>
          cases h
          exact ⟨by omega, row, fi, hrow, hfi, by omega, rfl, rfl⟩

theorem deleteZoneInventory_ok_inv (s : Db) (id : Nat) (s' : Db)
    (h : deleteZoneInventory s id = .ok s') :
    ∃ row, findZoneInventoryById s id = some row ∧
      s' = { s with
        zoneInventory := s.zoneInventory.filter (fun r => r.id != id),
        zoneObjects := s.zoneObjects.filter (fun o => o.zoneInventoryId != id) } := by
  unfold deleteZoneInventory at h
  split at h
  · cases h
  next row hrow =>
    cases h
    exact ⟨row, hrow, rfl⟩

theorem postZoneObject_ok_inv (s : Db) (zoneId ziId : Nat) (x y : Rat)
    (rot? : Option Rat) (obj : ZoneObjectRow) (s' : Db)
    (h : postZoneObject s zoneId ziId x y rot? = .ok (obj, s')) :
    ∃ zi, findZoneInventoryById s ziId = some zi ∧ zi.zoneId = zoneId ∧
      obj = { id := s.nextZoneObjectId, zoneId := zoneId,
              zoneInventoryId := ziId, x := x, y := y,
              rotation := rot?.getD 0 } ∧
      s' = { s with
        zoneInventory := incQuantity s.zoneInventory ziId 1,
        zoneObjects := s.zoneObjects ++ [obj],
        nextZoneObjectId := s.nextZoneObjectId + 1 } := by
  unfold postZoneObject at h
  simp only [] at h
  split at h
  · cases h
  next zi hzi =>
    split at h
    · cases h
    next hz =>
      cases h
      exact ⟨zi, hzi, by simpa using hz, rfl, rfl⟩

theorem deleteZoneObject_ok_inv (s : Db) (zoneId id : Nat) (s' : Db)
    (h : deleteZoneObject s zoneId id = .ok s') :
    ∃ obj, findZoneObjectById s id = some obj ∧ obj.zoneId = zoneId ∧
      s' = { s with
        zoneObjects := s.zoneObjects.filter (fun o => o.id != id),
        zoneInventory := incQuantity s.zoneInventory obj.zoneInventoryId (-1) } := by
  unfold deleteZoneObject at h
  split at h
  · cases h
  next obj hobj =>
    split at h
    · cases h
    next hz =>
      cases h
      exact ⟨obj, hobj, by simpa using hz, rfl⟩

/-- Members with equal ids coincide when the id projection is nodup. -/
theorem eq_of_nodup_map {α : Type} (f : α → Nat) {l : List α}
    (h : (l.map f).Nodup) {a b : α} (ha : a ∈ l) (hb : b ∈ l)
    (hf : f a = f b) : a = b := by
  induction l with
  | nil => cases ha
  | cons r t ih =>
    rw [List.map_cons, List.nodup_cons] at h
    rcases List.mem_cons.mp ha with h1 | h1 <;>
      rcases List.mem_cons.mp hb with h2 | h2
    · rw [h1, h2]
    · subst h1
      exact absurd (hf ▸ List.mem_map_of_mem f h2) h.1
    · subst h2
      exact absurd (hf ▸ List.mem_map_of_mem f h1) h.1
    · exact ih h.2 h1 h2

/-! ## Preservation of well-formedness and of the ledger invariant -/

theorem WF_postZoneInventory (s : Db) (zoneId fiId : Nat) (q : Int)
    (row : ZoneInventoryRow) (s' : Db)
    (h : postZoneInventory s zoneId fiId q = .ok (row, s')) (hwf : WF s) :
    WF s' := by
  obtain ⟨hq, fi, hfi, hcap, hk, hrow, hs'⟩ := postZoneInventory_ok_inv s zoneId fiId q row s' h
  obtain ⟨w1, w2, w3, w4, w5⟩ := hwf
  subst hs'
  refine ⟨w1, ?_, ?_, w4, w5⟩
  · rw [List.map_append, List.nodup_append]
    refine ⟨w2, List.nodup_singleton _, ?_⟩
    intro a ha hb
    rcases List.mem_map.mp ha with ⟨r, hr, hrid⟩
    simp only [hrow, List.map_singleton, List.mem_singleton] at hb
    have h3 := w3 r hr
    omega
  · intro r hr
    rcases List.mem_append.mp hr with h' | h'
    · exact Nat.lt_succ_of_lt (w3 r h')
    · rcases List.mem_singleton.mp h' with rfl
      rw [hrow]
      exact Nat.lt_succ_self _

theorem AllocInv_postZoneInventory (s : Db) (zoneId fiId : Nat) (q : Int)
    (row : ZoneInventoryRow) (s' : Db)
    (h : postZoneInventory s zoneId fiId q = .ok (row, s')) (hwf : WF s)
    (hinv : AllocInv s) : AllocInv s' := by
  obtain ⟨hq, fi, hfi, hcap, hk, hrow, hs'⟩ := postZoneInventory_ok_inv s zoneId fiId q row s' h
  obtain ⟨hfim, hfiid⟩ := findFloorInventory_eq_some s fiId fi hfi
  obtain ⟨hnn, hsum⟩ := hinv
  subst hs'
  constructor
  · intro r hr
    rcases List.mem_append.mp hr with h' | h'
    · exact hnn r h'
    · rcases List.mem_singleton.mp h' with rfl
      rw [hrow]
      exact hq
  · intro fi' hfi'
    have hfm : fi' ∈ s.floorInventory := hfi'
    have hfid : row.floorInventoryId = fiId := by rw [hrow]
    have hqq : row.quantity = q := by rw [hrow]
    show sumQ (s.zoneInventory ++ [row]) fi'.id ≤ fi'.count
    rw [sumQ_append, sumQ_singleton, hfid, hqq]
    by_cases hcase : fiId = fi'.id
    · have heq : fi' = fi := eq_of_nodup_map (fun r => r.id) hwf.1 hfm hfim
        (by show fi'.id = fi.id; omega)
      have h1 : (fiId == fi'.id) = true := by simp [hcase]
      rw [h1, if_pos rfl]
      unfold sumQuantity at hcap
      have hcnt : fi'.count = fi.count := by rw [heq]
      rw [← hcase]
      omega
    · have h1 : (fiId == fi'.id) = false := by simp [hcase]
      rw [h1]
      have hle := hsum fi' hfm
      unfold sumQuantity at hle
      simp only [Bool.false_eq_true, if_false, add_zero]
      exact hle

theorem WF_patchZoneInventory (s : Db) (id : Nat) (q : Int)
    (row' : ZoneInventoryRow) (s' : Db)
    (h : patchZoneInventory s id q = .ok (row', s')) (hwf : WF s) :
    WF s' := by
  obtain ⟨hq, row, fi, hrow, hfi, hcap, hrow', hs'⟩ := patchZoneInventory_ok_inv s id q row' s' h
  obtain ⟨w1, w2, w3, w4, w5⟩ := hwf
  subst hs'
  refine ⟨w1, ?_, ?_, w4, w5⟩
  · rw [setQuantity_map_id]
    exact w2
  · intro r hr
    obtain ⟨r0, hr0, hid, _, _⟩ := mem_setQuantity s.zoneInventory id q r hr
    rw [hid]
    exact w3 r0 hr0

theorem AllocInv_patchZoneInventory (s : Db) (id : Nat) (q : Int)
    (row' : ZoneInventoryRow) (s' : Db)
    (h : patchZoneInventory s id q = .ok (row', s')) (hwf : WF s)
    (hinv : AllocInv s) : AllocInv s' := by
  obtain ⟨hq, row, fi, hrow, hfi, hcap, hrow', hs'⟩ := patchZoneInventory_ok_inv s id q row' s' h
  obtain ⟨hrm, hrid⟩ := findZoneInventoryById_eq_some s id row hrow
  obtain ⟨hfim, hfiid⟩ := findFloorInventory_eq_some s row.floorInventoryId fi hfi
  obtain ⟨hnn, hsum⟩ := hinv
  subst hs'
  constructor
  · intro r hr
    obtain ⟨r0, hr0, _, _, hqr⟩ := mem_setQuantity s.zoneInventory id q r hr
    rcases hqr with h' | h'
    · rw [h']; exact hq
    · rw [h']; exact hnn r0 hr0
  · intro fi' hfi'
    show sumQ (setQuantity s.zoneInventory id q) fi'.id ≤ fi'.count
    have hfm : fi' ∈ s.floorInventory := hfi'
    by_cases hcase : row.floorInventoryId = fi'.id
    · have heq : fi' = fi := eq_of_nodup_map (fun r => r.id) hwf.1 hfm hfim
        (by show fi'.id = fi.id; omega)
      subst heq
      rw [sumQ_setQuantity s.zoneInventory id q fi'.id hwf.2.1 row hrm hrid hcase]
      rw [hcase] at hcap
      omega
    · rw [sumQ_setQuantity_of_forall s.zoneInventory id q fi'.id ?_]
      · exact hsum fi' hfm
      · intro r hr hrid'
        have hr2 : r = row := eq_of_nodup_map (fun r => r.id) hwf.2.1 hr hrm
          (by show r.id = row.id; omega)
        rw [hr2]
        exact hcase

theorem WF_deleteZoneInventory (s : Db) (id : Nat) (s' : Db)
    (h : deleteZoneInventory s id = .ok s') (hwf : WF s) : WF s' := by
  obtain ⟨row, hrow, hs'⟩ := deleteZoneInventory_ok_inv s id s' h
  obtain ⟨w1, w2, w3, w4, w5⟩ := hwf
  subst hs'
  refine ⟨w1, ?_, ?_, ?_, ?_⟩
  · exact w2.sublist ((List.filter_sublist _).map _)
  · intro r hr
    exact w3 r (List.mem_of_mem_filter hr)
  · exact w4.sublist ((List.filter_sublist _).map _)
  · intro r hr
    exact w5 r (List.mem_of_mem_filter hr)

theorem AllocInv_deleteZoneInventory (s : Db) (id : Nat) (s' : Db)
    (h : deleteZoneInventory s id = .ok s') (hinv : AllocInv s) :
    AllocInv s' := by
  obtain ⟨row, hrow, hs'⟩ := deleteZoneInventory_ok_inv s id s' h
  obtain ⟨hnn, hsum⟩ := hinv
  subst hs'
  constructor
  · intro r hr
    exact hnn r (List.mem_of_mem_filter hr)
  · intro fi' hfi'
    show sumQ (s.zoneInventory.filter (fun r => r.id != id)) fi'.id ≤ fi'.count
    rw [sumQ_filter_ne]
    calc sumQexc s.zoneInventory fi'.id id
        ≤ sumQ s.zoneInventory fi'.id := sumQexc_le_sumQ _ _ _ hnn
      _ ≤ fi'.count := hsum fi' hfi'

theorem WF_applyAllocOp (s : Db) (op : AllocOp) (hwf : WF s) :
    WF (applyAllocOp s op) := by
  cases op with
  | allocate z f q =>
    simp only [applyAllocOp]
    split
    next r s' h => exact WF_postZoneInventory s z f q r s' h hwf
    next => exact hwf
  | reallocate i q =>
    simp only [applyAllocOp]
    split
    next r s' h => exact WF_patchZoneInventory s i q r s' h hwf
    next => exact hwf
  | deallocate i =>
    simp only [applyAllocOp]
    split
    next s' h => exact WF_deleteZoneInventory s i s' h hwf
    next => exact hwf

theorem AllocInv_applyAllocOp (s : Db) (op : AllocOp) (hwf : WF s)
    (hinv : AllocInv s) : AllocInv (applyAllocOp s op) := by
  cases op with
  | allocate z f q =>
    simp only [applyAllocOp]
    split
    next r s' h => exact AllocInv_postZoneInventory s z f q r s' h hwf hinv
    next => exact hinv
  | reallocate i q =>
    simp only [applyAllocOp]
    split
    next r s' h => exact AllocInv_patchZoneInventory s i q r s' h hwf hinv
    next => exact hinv
  | deallocate i =>
    simp only [applyAllocOp]
    split
    next s' h => exact AllocInv_deleteZoneInventory s i s' h hinv
    next => exact hinv

theorem WF_AllocInv_runAllocOps (s : Db) (ops : List AllocOp) (hwf : WF s)
    (hinv : AllocInv s) :
    WF (runAllocOps s ops) ∧ AllocInv (runAllocOps s ops) := by
  induction ops generalizing s with
  | nil => exact ⟨hwf, hinv⟩
  | cons op ops ih =>
    exact ih (applyAllocOp s op) (WF_applyAllocOp s op hwf)
      (AllocInv_applyAllocOp s op hwf hinv)

/-- `find?` by id commutes with an id-preserving row transformation. -/
theorem find?_map_of_id (g : ZoneInventoryRow → ZoneInventoryRow)
    (hg : ∀ r, (g r).id = r.id) (l : List ZoneInventoryRow) (id : Nat) :
    (l.map g).find? (fun r => r.id == id) =
      (l.find? (fun r => r.id == id)).map g := by
  induction l with
  | nil => rfl
  | cons r t ih =>
    rw [List.map_cons, List.find?_cons, List.find?_cons]
    have hgr : ((g r).id == id) = (r.id == id) := by rw [hg]
    rw [hgr]
    cases h : r.id == id
    · exact ih
    · rfl

theorem patchZoneObject_ok_inv (s : Db) (zoneId id : Nat)
    (x? y? rot? : Option Rat) (obj : ZoneObjectRow) (s' : Db)
    (h : patchZoneObject s zoneId id x? y? rot? = .ok (obj, s')) :
    s'.zoneInventory = s.zoneInventory ∧ s'.floorInventory = s.floorInventory := by
  unfold patchZoneObject at h
  simp only [] at h
  split at h
  · cases h
  split at h
  · cases h
  next o ho =>
    split at h
    · cases h
    next =>
      cases h
      exact ⟨rfl, rfl⟩

/-- The allocation-ledger operations keep every quantity non-negative
(no well-formedness needed for this part alone). -/
theorem nonneg_applyAllocOp (s : Db) (op : AllocOp)
    (hq : ∀ zi ∈ s.zoneInventory, 0 ≤ zi.quantity) :
    ∀ zi ∈ (applyAllocOp s op).zoneInventory, 0 ≤ zi.quantity := by
  cases op with
  | allocate z f q =>
    simp only [applyAllocOp]
    split
    next r s' h =>
      obtain ⟨hq0, fi, _, _, _, hrow, hs'⟩ := postZoneInventory_ok_inv s z f q r s' h
      subst hs'
      intro zi hzi
      rcases List.mem_append.mp hzi with h' | h'
      · exact hq zi h'
      · rcases List.mem_singleton.mp h' with rfl
        rw [hrow]
        exact hq0
    next => exact hq
  | reallocate i q =>
    simp only [applyAllocOp]
    split
    next r s' h =>
      obtain ⟨hq0, row, fi, _, _, _, _, hs'⟩ := patchZoneInventory_ok_inv s i q r s' h
      subst hs'
      intro zi hzi
      obtain ⟨r0, hr0, _, _, hqr⟩ := mem_setQuantity s.zoneInventory i q zi hzi
      rcases hqr with h' | h'
      · rw [h']; exact hq0
      · rw [h']; exact hq r0 hr0
    next => exact hq
  | deallocate i =>
    simp only [applyAllocOp]
    split
    next s' h =>
      obtain ⟨row, _, hs'⟩ := deleteZoneInventory_ok_inv s i s' h
      subst hs'
      intro zi hzi
      exact hq zi (List.mem_of_mem_filter hzi)
    next => exact hq

/-! ## Claim theorems -/

/-- C1: No-overcommit invariant — for every floor stock and every
sequence of allocation-ledger operations (allocate, re-allocate,
deallocate), starting from any well-formed state satisfying the ledger
invariant (in particular from a fresh stock with no allocations), after
each successfully committed operation the sum of allocation quantities
referencing a stock entry is at most that entry's count. -/
theorem no_overcommit_invariant (s : Db) (ops : List AllocOp)
    (hwf : WF s) (hinv : AllocInv s) :
    AllocInv (runAllocOps s ops) ∧
    ∀ fi ∈ (runAllocOps s ops).floorInventory,
      sumQuantity (runAllocOps s ops) fi.id ≤ fi.count := by
  obtain ⟨_, hinv'⟩ := WF_AllocInv_runAllocOps s ops hwf hinv
  exact ⟨hinv', hinv'.2⟩

/-- Witness for C1 at the Scenario A stock and a mixed operation
sequence (including a rejected overcommitting allocation). -/
theorem no_overcommit_invariant_witness :
    WF exDbA ∧ AllocInv exDbA ∧
      (AllocInv (runAllocOps exDbA
        [.allocate 10 1 3, .allocate 20 1 3, .allocate 20 1 2,
         .reallocate 1 1, .deallocate 2]) ∧
      ∀ fi ∈ (runAllocOps exDbA
        [.allocate 10 1 3, .allocate 20 1 3, .allocate 20 1 2,
         .reallocate 1 1, .deallocate 2]).floorInventory,
        sumQuantity (runAllocOps exDbA
          [.allocate 10 1 3, .allocate 20 1 3, .allocate 20 1 2,
           .reallocate 1 1, .deallocate 2]) fi.id ≤ fi.count) :=
  ⟨by decide, by decide,
    no_overcommit_invariant exDbA
      [.allocate 10 1 3, .allocate 20 1 3, .allocate 20 1 2,
       .reallocate 1 1, .deallocate 2] (by decide) (by decide)⟩

/-- C2: Allocate fails with NotFound when the stock entry is absent,
fails with CapacityExceeded reporting `available = count − Σ existing`
when the requested quantity exceeds it, fails with Conflict when an
allocation for (zoneId, floorStockId) already exists, and otherwise
inserts the new allocation; Scenario A holds concretely. -/
theorem allocate_spec (s : Db) (zoneId fiId : Nat) (q : Int) (hq : 0 ≤ q) :
    (findFloorInventory s fiId = none →
      postZoneInventory s zoneId fiId q =
        .error (.notFound "Inventory item not found")) ∧
    (∀ fi, findFloorInventory s fiId = some fi →
      fi.count - sumQuantity s fiId < q →
      postZoneInventory s zoneId fiId q =
        .error (.capacityExceeded (fi.count - sumQuantity s fiId))) ∧
    (∀ fi zi, findFloorInventory s fiId = some fi →
      q ≤ fi.count - sumQuantity s fiId →
      findZoneInventoryByKey s zoneId fiId = some zi →
      postZoneInventory s zoneId fiId q =
        .error (.conflict "Already attached, use PATCH")) ∧
    (∀ fi, findFloorInventory s fiId = some fi →
      q ≤ fi.count - sumQuantity s fiId →
      findZoneInventoryByKey s zoneId fiId = none →
      postZoneInventory s zoneId fiId q =
        .ok ({ id := s.nextZoneInventoryId, zoneId := zoneId,
               floorInventoryId := fiId, quantity := q },
          { s with
            zoneInventory := s.zoneInventory ++
              [{ id := s.nextZoneInventoryId, zoneId := zoneId,
                 floorInventoryId := fiId, quantity := q }],
            nextZoneInventoryId := s.nextZoneInventoryId + 1 })) ∧
    (postZoneInventory exDbA 10 1 3 = .ok (⟨1, 10, 1, 3⟩, exDbA1)) ∧
    (postZoneInventory exDbA1 20 1 3 = .error (.capacityExceeded 2)) ∧
    (postZoneInventory exDbA1 20 1 2 = .ok (⟨2, 20, 1, 2⟩, exDbA2)) := by
  refine ⟨?_, ?_, ?_, ?_, rfl, rfl, rfl⟩
  · intro hnone
    unfold postZoneInventory
    rw [if_neg (by omega), hnone]
  · intro fi hfi hlt
    unfold postZoneInventory
    rw [if_neg (by omega), hfi]
    simp only []
    rw [if_pos (by unfold sumQuantity at hlt ⊢; omega)]
  · intro fi zi hfi hle hkey
    unfold postZoneInventory
    rw [if_neg (by omega), hfi]
    simp only []
    rw [if_neg (by unfold sumQuantity at hle ⊢; omega), hkey]
  · intro fi hfi hle hkey
    unfold postZoneInventory
    rw [if_neg (by omega), hfi]
    simp only []
    rw [if_neg (by unfold sumQuantity at hle ⊢; omega), hkey]

/-- Witness for C2: all four behavioural cases instantiated at the
Scenario A states. -/
theorem allocate_spec_witness :
    (0 : Int) ≤ 3 ∧
    ((findFloorInventory exDbA1 1 = none →
      postZoneInventory exDbA1 20 1 3 =
        .error (.notFound "Inventory item not found")) ∧
    (∀ fi, findFloorInventory exDbA1 1 = some fi →
      fi.count - sumQuantity exDbA1 1 < 3 →
      postZoneInventory exDbA1 20 1 3 =
        .error (.capacityExceeded (fi.count - sumQuantity exDbA1 1))) ∧
    (∀ fi zi, findFloorInventory exDbA1 1 = some fi →
      3 ≤ fi.count - sumQuantity exDbA1 1 →
      findZoneInventoryByKey exDbA1 20 1 = some zi →
      postZoneInventory exDbA1 20 1 3 =
        .error (.conflict "Already attached, use PATCH")) ∧
    (∀ fi, findFloorInventory exDbA1 1 = some fi →
      3 ≤ fi.count - sumQuantity exDbA1 1 →
      findZoneInventoryByKey exDbA1 20 1 = none →
      postZoneInventory exDbA1 20 1 3 =
        .ok ({ id := exDbA1.nextZoneInventoryId, zoneId := 20,
               floorInventoryId := 1, quantity := 3 },
          { exDbA1 with
            zoneInventory := exDbA1.zoneInventory ++
              [{ id := exDbA1.nextZoneInventoryId, zoneId := 20,
                 floorInventoryId := 1, quantity := 3 }],
            nextZoneInventoryId := exDbA1.nextZoneInventoryId + 1 })) ∧
    (postZoneInventory exDbA 10 1 3 = .ok (⟨1, 10, 1, 3⟩, exDbA1)) ∧
    (postZoneInventory exDbA1 20 1 3 = .error (.capacityExceeded 2)) ∧
    (postZoneInventory exDbA1 20 1 2 = .ok (⟨2, 20, 1, 2⟩, exDbA2))) :=
  ⟨by decide, allocate_spec exDbA1 20 1 3 (by decide)⟩

/-- C3: Re-allocate fails with NotFound when the allocation is absent;
otherwise it computes `usedByOthers` as the sum over the same stock
entry excluding this allocation, fails with CapacityExceeded reporting
`availableForThis = count − usedByOthers` when the new quantity exceeds
it, and otherwise updates the quantity; Scenario D holds concretely. -/
theorem reallocate_spec (s : Db) (id : Nat) (q : Int) (hq : 0 ≤ q) :
    (findZoneInventoryById s id = none →
      patchZoneInventory s id q = .error (.notFound "Not found")) ∧
    (∀ row fi, findZoneInventoryById s id = some row →
      findFloorInventory s row.floorInventoryId = some fi →
      fi.count - sumQexc s.zoneInventory row.floorInventoryId id < q →
      patchZoneInventory s id q =
        .error (.capacityExceeded
          (fi.count - sumQexc s.zoneInventory row.floorInventoryId id))) ∧
    (∀ row fi, findZoneInventoryById s id = some row →
      findFloorInventory s row.floorInventoryId = some fi →
      q ≤ fi.count - sumQexc s.zoneInventory row.floorInventoryId id →
      patchZoneInventory s id q =
        .ok ({ row with quantity := q },
          { s with zoneInventory := setQuantity s.zoneInventory id q })) ∧
    (patchZoneInventory exDbD 1 1 = .ok (⟨1, 10, 1, 1⟩, exDbD1)) ∧
    (patchZoneInventory exDbD 1 4 = .error (.capacityExceeded 3)) := by
  refine ⟨?_, ?_, ?_, rfl, rfl⟩
  · intro hnone
    unfold patchZoneInventory
    rw [if_neg (by omega), hnone]
  · intro row fi hrow hfi hlt
    unfold patchZoneInventory
    rw [if_neg (by omega), hrow]
    simp only []
    rw [hfi]
    simp only []
    rw [if_pos (by omega)]
  · intro row fi hrow hfi hle
    unfold patchZoneInventory
    rw [if_neg (by omega), hrow]
    simp only []
    rw [hfi]
    simp only []
    rw [if_neg (by omega)]

/-- Witness for C3: the three behavioural cases instantiated at the
Scenario D state. -/
theorem reallocate_spec_witness :
    (0 : Int) ≤ 1 ∧
    ((findZoneInventoryById exDbD 1 = none →
      patchZoneInventory exDbD 1 1 = .error (.notFound "Not found")) ∧
    (∀ row fi, findZoneInventoryById exDbD 1 = some row →
      findFloorInventory exDbD row.floorInventoryId = some fi →
      fi.count - sumQexc exDbD.zoneInventory row.floorInventoryId 1 < 1 →
      patchZoneInventory exDbD 1 1 =
        .error (.capacityExceeded
          (fi.count - sumQexc exDbD.zoneInventory row.floorInventoryId 1))) ∧
    (∀ row fi, findZoneInventoryById exDbD 1 = some row →
      findFloorInventory exDbD row.floorInventoryId = some fi →
      1 ≤ fi.count - sumQexc exDbD.zoneInventory row.floorInventoryId 1 →
      patchZoneInventory exDbD 1 1 =
        .ok ({ row with quantity := 1 },
          { exDbD with zoneInventory := setQuantity exDbD.zoneInventory 1 1 })) ∧
    (patchZoneInventory exDbD 1 1 = .ok (⟨1, 10, 1, 1⟩, exDbD1)) ∧
    (patchZoneInventory exDbD 1 4 = .error (.capacityExceeded 3))) :=
  ⟨by decide, reallocate_spec exDbD 1 1 (by decide)⟩

/-- C4 counterexample: on an allocation with quantity 3, a successful
Place leaves the quantity at 4 — the code *increments* it — not at
3 − 1 = 2 as the claim's decrement direction requires (and symmetrically
Remove decrements rather than increments). -/
theorem place_decrements_cex :
    postZoneObject exDbPlace 10 1 0 0 none =
      .ok (⟨1, 10, 1, 0, 0, 0⟩, exDbPlaced) ∧
    (findZoneInventoryById exDbPlace 1).map (fun r => r.quantity) = some 3 ∧
    (findZoneInventoryById exDbPlaced 1).map (fun r => r.quantity) = some 4 ∧
    ¬ (findZoneInventoryById exDbPlaced 1).map (fun r => r.quantity) =
      some (3 - 1) ∧
    deleteZoneObject exDbPlaced 10 1 = .ok exDbPlaceBack ∧
    ¬ (findZoneInventoryById exDbPlaceBack 1).map (fun r => r.quantity) =
      some (4 + 1) := by
  exact ⟨rfl, rfl, rfl, by decide, by decide, by decide⟩

/-- C4 amended: the coupled-counter direction is the reverse of the
claim — every successful Place *increments* the placed allocation's
quantity by one, and every successful Remove *decrements* the
allocation's quantity by one. -/
theorem place_increments_remove_decrements (s : Db) :
    (∀ zoneId ziId x y rot obj s' zi,
      postZoneObject s zoneId ziId x y rot = .ok (obj, s') →
      findZoneInventoryById s ziId = some zi →
      findZoneInventoryById s' ziId =
        some { zi with quantity := zi.quantity + 1 }) ∧
    (∀ zoneId oid s' obj zi,
      deleteZoneObject s zoneId oid = .ok s' →
      findZoneObjectById s oid = some obj →
      findZoneInventoryById s obj.zoneInventoryId = some zi →
      findZoneInventoryById s' obj.zoneInventoryId =
        some { zi with quantity := zi.quantity - 1 }) := by
  constructor
  · intro zoneId ziId x y rot obj s' zi hp hfind
    obtain ⟨zi0, hzi0, hz, hobj, hs'⟩ :=
      postZoneObject_ok_inv s zoneId ziId x y rot obj s' hp
    subst hs'
    show (incQuantity s.zoneInventory ziId 1).find? (fun r => r.id == ziId) =
      some { zi with quantity := zi.quantity + 1 }
    unfold incQuantity
    rw [find?_map_of_id _ (fun r => by cases h : r.id == ziId <;> simp [h]) _ ziId]
    unfold findZoneInventoryById at hfind
    rw [hfind]
    obtain ⟨_, hid⟩ := findZoneInventoryById_eq_some s ziId zi hfind
    simp [hid]
  · intro zoneId oid s' obj zi hd hfindo hfind
    obtain ⟨obj0, hobj0, hz, hs'⟩ := deleteZoneObject_ok_inv s zoneId oid s' hd
    rw [hfindo] at hobj0
    injection hobj0 with hobj0
    subst hobj0
    subst hs'
    show (incQuantity s.zoneInventory obj.zoneInventoryId (-1)).find?
        (fun r => r.id == obj.zoneInventoryId) =
      some { zi with quantity := zi.quantity - 1 }
    unfold incQuantity
    rw [find?_map_of_id _
      (fun r => by cases h : r.id == obj.zoneInventoryId <;> simp [h]) _
      obj.zoneInventoryId]
    unfold findZoneInventoryById at hfind
    rw [hfind]
    obtain ⟨_, hid⟩ :=
      findZoneInventoryById_eq_some s obj.zoneInventoryId zi hfind
    simp [hid]
    rw [Int.sub_eq_add_neg]

/-- Witness for C4's amended statement at the concrete place/remove
pair on `exDbPlace`. -/
theorem place_increments_remove_decrements_witness :
    (findZoneInventoryById exDbPlaced 1 =
      some { (⟨1, 10, 1, 3⟩ : ZoneInventoryRow) with quantity := 3 + 1 }) ∧
    (findZoneInventoryById exDbPlaceBack 1 =
      some { (⟨1, 10, 1, 4⟩ : ZoneInventoryRow) with quantity := 4 - 1 }) :=
  ⟨(place_increments_remove_decrements exDbPlace).1 10 1 0 0 none
      ⟨1, 10, 1, 0, 0, 0⟩ exDbPlaced ⟨1, 10, 1, 3⟩ rfl rfl,
   (place_increments_remove_decrements exDbPlaced).2 10 1 exDbPlaceBack
      ⟨1, 10, 1, 0, 0, 0⟩ ⟨1, 10, 1, 4⟩ (by decide) rfl rfl⟩

/-- C5 counterexample: with an allocation of quantity 4 already carrying
4 placed objects, a fifth Place request is *accepted*: it inserts a
fifth placement row (and pushes the quantity to 5) instead of being
rejected with an error. -/
theorem placement_capacity_cex :
    (findZoneInventoryById exDbFull 1).map (fun r => r.quantity) = some 4 ∧
    (exDbFull.zoneObjects.filter (fun o => o.zoneInventoryId == 1)).length
      = 4 ∧
    postZoneObject exDbFull 10 1 0 0 none =
      .ok (⟨5, 10, 1, 0, 0, 0⟩, exDbFullAfter) ∧
    exDbFullAfter.zoneObjects.length = 5 := by
  exact ⟨rfl, rfl, rfl, rfl⟩

/-- C5 amended: Place performs no capacity check at all — whenever the
allocation exists and belongs to the stated zone, the placement is
inserted (and the quantity incremented), however many objects are
already placed on the allocation. -/
theorem place_no_capacity_check (s : Db) (zoneId ziId : Nat) (x y : Rat)
    (rot : Option Rat) (zi : ZoneInventoryRow)
    (h : findZoneInventoryById s ziId = some zi) (hz : zi.zoneId = zoneId) :
    postZoneObject s zoneId ziId x y rot =
      .ok ({ id := s.nextZoneObjectId, zoneId := zoneId,
             zoneInventoryId := ziId, x := x, y := y,
             rotation := rot.getD 0 },
        { s with
          zoneInventory := incQuantity s.zoneInventory ziId 1,
          zoneObjects := s.zoneObjects ++
            [{ id := s.nextZoneObjectId, zoneId := zoneId,
               zoneInventoryId := ziId, x := x, y := y,
               rotation := rot.getD 0 }],
          nextZoneObjectId := s.nextZoneObjectId + 1 }) := by
  unfold postZoneObject
  rw [h]
  simp only []
  have hzz : (zi.zoneId != zoneId) = false := by simp [hz]
  rw [hzz]
  rfl

/-- Witness for C5's amended statement: the fifth placement on the
exhausted allocation of `exDbFull` goes through. -/
theorem place_no_capacity_check_witness :
    postZoneObject exDbFull 10 1 0 0 none =
      .ok ({ id := exDbFull.nextZoneObjectId, zoneId := 10,
             zoneInventoryId := 1, x := 0, y := 0,
             rotation := (none : Option Rat).getD 0 },
        { exDbFull with
          zoneInventory := incQuantity exDbFull.zoneInventory 1 1,
          zoneObjects := exDbFull.zoneObjects ++
            [{ id := exDbFull.nextZoneObjectId, zoneId := 10,
               zoneInventoryId := 1, x := 0, y := 0,
               rotation := (none : Option Rat).getD 0 }],
          nextZoneObjectId := exDbFull.nextZoneObjectId + 1 }) :=
  place_no_capacity_check exDbFull 10 1 0 0 none ⟨1, 10, 1, 4⟩ rfl rfl

/-- C6: the delete-stock route issues its two Prisma calls as separate
implicit transactions, not one `$transaction`. On the Scenario C state
the first statement alone already deletes both dependent allocations and
(by cascade) both placements while the stock row is still present — an
observable intermediate state in which the cleanup has committed without
the stock deletion, which a single atomic transaction would never
expose. Run to completion the route leaves no orphans, and on an absent
id it reports NotFound with the dependent-cleanup a no-op. -/
theorem delete_stock_not_atomic :
    (deleteFloorInventoryDependents exDbCascade 1).zoneInventory = [] ∧
    (deleteFloorInventoryDependents exDbCascade 1).zoneObjects = [] ∧
    findFloorInventory (deleteFloorInventoryDependents exDbCascade 1) 1 =
      some ⟨1, 1, "chair", 5⟩ ∧
    deleteFloorInventoryDependents exDbCascade 1 ≠ exDbCascade ∧
    deleteFloorInventoryRoute exDbCascade 1 =
      .ok ⟨[], [], [], 3, 3⟩ ∧
    deleteFloorInventoryRoute exDbCascade 99 =
      .error (.notFound "Inventory item not found") ∧
    deleteFloorInventoryDependents exDbCascade 99 = exDbCascade := by
  exact ⟨rfl, rfl, rfl, by decide, by decide, by decide, by decide⟩

/-- C7 counterexample: a reachable trace driving an allocation quantity
to −1 — allocate quantity 0, place one object (quantity becomes 1),
re-allocate back to 0 while the object stays placed, then remove the
object: the unconditional decrement yields quantity −1. -/
theorem quantity_goes_negative_cex :
    postZoneInventory exDbA 10 1 0 = .ok (⟨1, 10, 1, 0⟩, exN1) ∧
    postZoneObject exN1 10 1 0 0 none = .ok (⟨1, 10, 1, 0, 0, 0⟩, exN2) ∧
    patchZoneInventory exN2 1 0 = .ok (⟨1, 10, 1, 0⟩, exN3) ∧
    deleteZoneObject exN3 10 1 = .ok exN4 ∧
    (findZoneInventoryById exN4 1).map (fun r => r.quantity) = some (-1) ∧
    ¬ ∀ zi ∈ exN4.zoneInventory, 0 ≤ zi.quantity := by
  exact ⟨rfl, rfl, rfl, by decide, by decide, by decide⟩

/-- C7 amended: allocate, re-allocate, deallocate, Place and Move all
preserve non-negativity of every allocation quantity, and Remove
preserves it provided every quantity is at least 1 beforehand; the
unguarded decrement in Remove is the single operation that can produce
a negative quantity (as the counterexample trace shows). -/
theorem nonneg_quantity_amended (s : Db)
    (hq : ∀ zi ∈ s.zoneInventory, 0 ≤ zi.quantity) :
    (∀ op, ∀ zi ∈ (applyAllocOp s op).zoneInventory, 0 ≤ zi.quantity) ∧
    (∀ zoneId ziId x y rot obj s',
      postZoneObject s zoneId ziId x y rot = .ok (obj, s') →
      ∀ zi ∈ s'.zoneInventory, 0 ≤ zi.quantity) ∧
    (∀ zoneId id x? y? rot? obj s',
      patchZoneObject s zoneId id x? y? rot? = .ok (obj, s') →
      ∀ zi ∈ s'.zoneInventory, 0 ≤ zi.quantity) ∧
    (∀ zoneId oid s',
      deleteZoneObject s zoneId oid = .ok s' →
      (∀ zi ∈ s.zoneInventory, 1 ≤ zi.quantity) →
      ∀ zi ∈ s'.zoneInventory, 0 ≤ zi.quantity) := by
  refine ⟨fun op => nonneg_applyAllocOp s op hq, ?_, ?_, ?_⟩
  · intro zoneId ziId x y rot obj s' hp
    obtain ⟨zi0, _, _, _, hs'⟩ :=
      postZoneObject_ok_inv s zoneId ziId x y rot obj s' hp
    subst hs'
    intro zi hzi
    obtain ⟨r0, hr0, _, _, hqr⟩ :=
      mem_incQuantity s.zoneInventory ziId 1 zi hzi
    have := hq r0 hr0
    rcases hqr with h' | h' <;> omega
  · intro zoneId id x? y? rot? obj s' hp
    obtain ⟨hzi, _⟩ := patchZoneObject_ok_inv s zoneId id x? y? rot? obj s' hp
    rw [hzi]
    exact hq
  · intro zoneId oid s' hd h1
    obtain ⟨obj, _, _, hs'⟩ := deleteZoneObject_ok_inv s zoneId oid s' hd
    subst hs'
    intro zi hzi
    obtain ⟨r0, hr0, _, _, hqr⟩ :=
      mem_incQuantity s.zoneInventory obj.zoneInventoryId (-1) zi hzi
    have := h1 r0 hr0
    rcases hqr with h' | h' <;> omega

/-- Witness for C7's amended statement at the Scenario D state. -/
theorem nonneg_quantity_amended_witness :
    (∀ zi ∈ exDbD.zoneInventory, 0 ≤ zi.quantity) ∧
    ((∀ op, ∀ zi ∈ (applyAllocOp exDbD op).zoneInventory, 0 ≤ zi.quantity) ∧
    (∀ zoneId ziId x y rot obj s',
      postZoneObject exDbD zoneId ziId x y rot = .ok (obj, s') →
      ∀ zi ∈ s'.zoneInventory, 0 ≤ zi.quantity) ∧
    (∀ zoneId id x? y? rot? obj s',
      patchZoneObject exDbD zoneId id x? y? rot? = .ok (obj, s') →
      ∀ zi ∈ s'.zoneInventory, 0 ≤ zi.quantity) ∧
    (∀ zoneId oid s',
      deleteZoneObject exDbD zoneId oid = .ok s' →
      (∀ zi ∈ exDbD.zoneInventory, 1 ≤ zi.quantity) →
      ∀ zi ∈ s'.zoneInventory, 0 ≤ zi.quantity)) :=
  ⟨by decide, nonneg_quantity_amended exDbD (by decide)⟩

/-- C8: Update count performs no validation against existing
allocations — with the stock entry present it succeeds for every
non-negative new count, in particular when the new count is strictly
below the currently allocated sum; it fails with NotFound exactly when
the entry is absent. -/
theorem update_count_no_validation (s : Db) (id : Nat) (c : Int)
    (hc : 0 ≤ c) :
    (findFloorInventory s id = none →
      patchFloorInventory s id (some c) =
        .error (.notFound "Inventory item not found")) ∧
    (∀ fi, findFloorInventory s id = some fi →
      patchFloorInventory s id (some c) =
        .ok ({ fi with count := c },
          { s with floorInventory := s.floorInventory.map (fun r => if r.id == id then { r with count := c } else r) })) ∧
    (∀ fi, findFloorInventory s id = some fi → c < sumQuantity s id →
      patchFloorInventory s id (some c) =
        .ok ({ fi with count := c },
          { s with floorInventory := s.floorInventory.map (fun r => if r.id == id then { r with count := c } else r) })) := by
  refine ⟨?_, ?_, ?_⟩
  · intro hnone
    unfold patchFloorInventory
    simp only []
    rw [if_neg (by omega), hnone]
  · intro fi hfi
    unfold patchFloorInventory
    simp only []
    rw [if_neg (by omega), hfi]
  · intro fi hfi _
    unfold patchFloorInventory
    simp only []
    rw [if_neg (by omega), hfi]

/-- Witness for C8: lowering the count to 1 while 5 units are allocated
succeeds. -/
theorem update_count_no_validation_witness :
    (0 : Int) ≤ 1 ∧
    ((findFloorInventory exDbOver 1 = none →
      patchFloorInventory exDbOver 1 (some 1) =
        .error (.notFound "Inventory item not found")) ∧
    (∀ fi, findFloorInventory exDbOver 1 = some fi →
      patchFloorInventory exDbOver 1 (some 1) =
        .ok ({ fi with count := 1 },
          { exDbOver with floorInventory := exDbOver.floorInventory.map (fun r => if r.id == 1 then { r with count := 1 } else r) })) ∧
    (∀ fi, findFloorInventory exDbOver 1 = some fi →
      1 < sumQuantity exDbOver 1 →
      patchFloorInventory exDbOver 1 (some 1) =
        .ok ({ fi with count := 1 },
          { exDbOver with floorInventory := exDbOver.floorInventory.map (fun r => if r.id == 1 then { r with count := 1 } else r) }))) :=
  ⟨by decide, update_count_no_validation exDbOver 1 1 (by decide)⟩

/-- C9: the usage report returns, per stock entry of the floor,
`used = Σ allocation.quantity` and `available = max(count − used, 0)` —
never negative, and zero whenever `used` exceeds a lowered `count`; the
operation is a pure read (a function of the state that performs no
writes), so two calls with no intervening writes agree. -/
theorem compute_usage_spec (s : Db) (floorId : Nat) :
    (∀ u ∈ floorInventoryWithUsage s floorId,
      u.used = sumQuantity s u.id ∧
      u.available = max (u.count - u.used) 0 ∧
      0 ≤ u.available ∧ (u.count < u.used → u.available = 0)) ∧
    (∀ fi ∈ s.floorInventory, fi.floorId = floorId →
      ({ id := fi.id, floorId := fi.floorId, catalogId := fi.catalogId,
         count := fi.count, used := sumQuantity s fi.id,
         available := max (fi.count - sumQuantity s fi.id) 0 } : UsageRow)
        ∈ floorInventoryWithUsage s floorId) ∧
    floorInventoryWithUsage s floorId = floorInventoryWithUsage s floorId := by
  refine ⟨?_, ?_, rfl⟩
  · intro u hu
    unfold floorInventoryWithUsage at hu
    rcases List.mem_map.mp hu with ⟨it, hit, hEq⟩
    subst hEq
    refine ⟨rfl, rfl, le_max_right _ _, ?_⟩
    · intro h
      have h' : it.count < sumQuantity s it.id := h
      show max (it.count - sumQuantity s it.id) 0 = 0
      exact max_eq_right (by omega)
  · intro fi hfi hfl
    unfold floorInventoryWithUsage
    apply List.mem_map.mpr
    refine ⟨fi, List.mem_filter.mpr ⟨hfi, by simp [hfl]⟩, rfl⟩

/-- C10: placing an object and immediately removing that same placement
restores the allocation table (hence the allocation's quantity) and the
placement table exactly to their state before the Place. -/
theorem place_remove_roundtrip (s : Db) (zoneId ziId : Nat) (x y : Rat)
    (rot : Option Rat) (obj : ZoneObjectRow) (s' : Db) (hwf : WF s)
    (hp : postZoneObject s zoneId ziId x y rot = .ok (obj, s')) :
    ∃ s'', deleteZoneObject s' zoneId obj.id = .ok s'' ∧
      s''.zoneInventory = s.zoneInventory ∧
      s''.zoneObjects = s.zoneObjects ∧
      s''.floorInventory = s.floorInventory := by
  obtain ⟨zi, hzi, hz, hobj, hs'⟩ :=
    postZoneObject_ok_inv s zoneId ziId x y rot obj s' hp
  have hid : obj.id = s.nextZoneObjectId := by rw [hobj]
  have hzid : obj.zoneInventoryId = ziId := by rw [hobj]
  have hzone : obj.zoneId = zoneId := by rw [hobj]
  have hfresh : ∀ o ∈ s.zoneObjects, o.id ≠ obj.id := by
    intro o ho
    have h5 := hwf.2.2.2.2 o ho
    omega
  subst hs'
  have hfind : findZoneObjectById { s with
      zoneInventory := incQuantity s.zoneInventory ziId 1,
      zoneObjects := s.zoneObjects ++ [obj],
      nextZoneObjectId := s.nextZoneObjectId + 1 } obj.id = some obj := by
    unfold findZoneObjectById
    exact find?_append_of_forall_ne (fun o => o.id) s.zoneObjects obj obj.id
      hfresh rfl
  unfold deleteZoneObject
  rw [hfind]
  simp only []
  have hzz : (obj.zoneId != zoneId) = false := by simp [hzone]
  rw [hzz, if_neg (by decide : ¬ (false = true))]
  refine ⟨_, rfl, ?_, ?_, rfl⟩
  · show incQuantity (incQuantity s.zoneInventory ziId 1)
      obj.zoneInventoryId (-1) = s.zoneInventory
    rw [hzid, incQuantity_incQuantity,
      (by decide : (1 : Int) + (-1) = 0), incQuantity_zero]
  · show (s.zoneObjects ++ [obj]).filter (fun o => o.id != obj.id) =
      s.zoneObjects
    rw [List.filter_append]
    have h2 : s.zoneObjects.filter (fun o => o.id != obj.id) =
        s.zoneObjects :=
      List.filter_eq_self.mpr (fun o ho => by simp [hfresh o ho])
    have h3 : ([obj].filter (fun o => o.id != obj.id)) = [] := by simp
    rw [h2, h3, List.append_nil]

/-- Witness for C10 at the concrete place/remove pair on `exDbPlace`. -/
theorem place_remove_roundtrip_witness :
    WF exDbPlace ∧
    (∃ s'', deleteZoneObject exDbPlaced 10
        (⟨1, 10, 1, 0, 0, 0⟩ : ZoneObjectRow).id = .ok s'' ∧
      s''.zoneInventory = exDbPlace.zoneInventory ∧
      s''.zoneObjects = exDbPlace.zoneObjects ∧
      s''.floorInventory = exDbPlace.floorInventory) :=
  ⟨by decide,
   place_remove_roundtrip exDbPlace 10 1 0 0 none ⟨1, 10, 1, 0, 0, 0⟩
     exDbPlaced (by decide) rfl⟩

end OfficeServer
